import Mathlib

/-!
Verification of the text2matrix trait-accumulation core.

This file is a shallow embedding of the response-regularisation pipeline
(`common_scripts/regularise.py`, `common_scripts/llmcharjsonprocessor.py`),
the trait accumulators (`common_scripts/accumulator.py`) and the omission
detector of `desc2matrix_followup.py`, together with theorems settling the
specification claims about them.

JSON-decoded Python values are modelled by `PyVal`; an uncaught Python
exception is modelled by `Except.error`; the inference backend is modelled
as an oracle (`LLMResponse`) supplying the raw response text together with
the outcome of `json.loads` on it.
-/

set_option maxHeartbeats 1000000

/-- A Python value as produced by `json.loads` (plus `None`/`bool` returned by
the regularisers themselves).  Floats are outside the scope of this model;
dicts are key/value pair lists in insertion order with string keys, as JSON
objects decode to. -/
inductive PyVal where
  | none
  | bool (b : Bool)
  | int (n : Int)
  | str (s : String)
  | list (xs : List PyVal)
  | dict (kvs : List (String × PyVal))

/-- Python `x == None` for JSON values: true exactly on `None`. -/
def PyVal.isNone : PyVal → Bool
  | PyVal.none => true
  | _ => false

/-- Python `set(ks) == set(es)` for string key lists. -/
def keySetEq (ks es : List String) : Bool :=
  ks.all (fun k => es.contains k) && es.all (fun e => ks.contains e)

/-- Python dict lookup `kvs[k]`, first matching pair (keys of a decoded JSON
object are unique). `Option.none` models a `KeyError`. -/
def dictFind (kvs : List (String × PyVal)) (k : String) : Option PyVal :=
  (kvs.find? (fun p => decide (p.1 = k))).map Prod.snd

/-- Total variant of `dictFind`, used on the claim side where presence of the
key has been established. -/
def dictGet (kvs : List (String × PyVal)) (k : String) : PyVal :=
  (dictFind kvs k).getD PyVal.none

/-- Python dict update `kvs[k] = v`: replaces the value at an existing key in
place, otherwise appends the pair. -/
def dictSet (kvs : List (String × PyVal)) (k : String) (v : PyVal) : List (String × PyVal) :=
  if kvs.any (fun p => decide (p.1 = k)) then
    kvs.map (fun p => if p.1 = k then (k, v) else p)
  else
    kvs ++ [(k, v)]

def squoteChar : Char := Char.ofNat 39

def dquoteChar : Char := Char.ofNat 34

def backslashChar : Char := Char.ofNat 92

/-- One character of Python `repr` of a string, with `q` the enclosing
quote character. -/
def strReprEscape (q : Char) (c : Char) : String :=
  if c = backslashChar then String.singleton backslashChar ++ String.singleton backslashChar
  else if c = q then String.singleton backslashChar ++ String.singleton q
  else if c = Char.ofNat 10 then String.singleton backslashChar ++ "n"
  else if c = Char.ofNat 13 then String.singleton backslashChar ++ "r"
  else if c = Char.ofNat 9 then String.singleton backslashChar ++ "t"
  else String.singleton c

/-- Python `repr` of a string: single-quoted, unless the string holds a single
quote and no double quote. -/
def strRepr (s : String) : String :=
  let q : Char := if s.contains squoteChar && !(s.contains dquoteChar) then dquoteChar else squoteChar
  String.singleton q ++ String.join (s.data.map (strReprEscape q)) ++ String.singleton q

/-- Python `repr` of a JSON-shaped value. -/
def pyRepr : PyVal → String
  | PyVal.none => "None"
  | PyVal.bool true => "True"
  | PyVal.bool false => "False"
  | PyVal.int n => toString n
  | PyVal.str s => strRepr s
  | PyVal.list xs =>
      "[" ++ String.intercalate ", " (xs.attach.map (fun a => pyRepr a.1)) ++ "]"
  | PyVal.dict kvs =>
      "\x7b" ++ String.intercalate ", "
        (kvs.attach.map (fun a => strRepr a.1.1 ++ ": " ++ pyRepr a.1.2)) ++ "\x7d"
termination_by v => sizeOf v
decreasing_by
  · have h := List.sizeOf_lt_of_mem a.2
    simp only [PyVal.list.sizeOf_spec]
    omega
  · have h := List.sizeOf_lt_of_mem a.2
    have h2 : sizeOf a.1.2 < sizeOf a.1 := by
      cases a.1 with
      | mk k v => simp
    simp only [PyVal.dict.sizeOf_spec]
    omega

/-- Python `str`: identity on strings, `repr` otherwise (for the JSON-shaped
values of this model). -/
def pyStr (v : PyVal) : String :=
  match v with
  | PyVal.str s => s
  | _ => pyRepr v

/-- Python `sep.join(xs)`: raises `TypeError` when an element is not a
string. -/
def pyJoin (sep : String) (xs : List PyVal) : Except String String :=
  match xs.mapM (fun v => match v with
      | PyVal.str s => Except.ok s
      | _ => Except.error "TypeError") with
  | Except.ok ss => Except.ok (String.intercalate sep ss)
  | Except.error e => Except.error e

/-! ## `common_scripts/regularise.py` -/

/-- Loop body of `regularise_charjson` (`regularise.py` lines 21-34): for each
element, return `None` on an unexpected key set, raise `AttributeError` on a
non-dict (`char.keys()`), skip elements whose value is `None`, otherwise
coerce the value to a string and keep the element. -/
def regularise_charjson_go : List PyVal → Except String PyVal
  | [] => Except.ok (PyVal.list [])
  | char :: rest =>
    match char with
    | PyVal.dict kvs =>
      if keySetEq (kvs.map Prod.fst) ["characteristic", "value"] then
        match dictFind kvs "value" with
        | Option.some v =>
          if v.isNone then
            regularise_charjson_go rest
          else
            match regularise_charjson_go rest with
            | Except.ok (PyVal.list ys) =>
                Except.ok (PyVal.list
                  (PyVal.dict (dictSet kvs "value" (PyVal.str (pyStr v))) :: ys))
            | other => other
        | Option.none => Except.error "KeyError"
      else Except.ok PyVal.none
    | _ => Except.error "AttributeError"

/-- `regularise.regularise_charjson` (`regularise.py` lines 3-37): `None` for a
non-list, else the element loop. -/
def regularise_charjson (chars : PyVal) : Except String PyVal :=
  match chars with
  | PyVal.list xs => regularise_charjson_go xs
  | _ => Except.ok PyVal.none

/-- Loop body of `regularise_table` (`regularise.py` lines 58-71): note that
unlike `regularise_charjson` it returns `False` (not `None`) on an unexpected
key set or on per-sample key sets differing from `spids`. -/
def regularise_table_go (spids : List String) : List PyVal → Except String PyVal
  | [] => Except.ok (PyVal.list [])
  | char :: rest =>
    match char with
    | PyVal.dict kvs =>
      if keySetEq (kvs.map Prod.fst) ["characteristic", "values"] then
        match dictFind kvs "values" with
        | Option.some values =>
          match values with
          | PyVal.dict vkvs =>
            if keySetEq (vkvs.map Prod.fst) spids then
              match regularise_table_go spids rest with
              | Except.ok (PyVal.list ys) =>
                  Except.ok (PyVal.list
                    (PyVal.dict (dictSet kvs "values"
                      (PyVal.dict (vkvs.map (fun p => (p.1, PyVal.str (pyStr p.2)))))) :: ys))
              | other => other
            else Except.ok (PyVal.bool false)
          | _ => Except.error "AttributeError"
        | Option.none => Except.error "KeyError"
      else Except.ok (PyVal.bool false)
    | _ => Except.error "AttributeError"

/-- `regularise.regularise_table` (`regularise.py` lines 39-74). -/
def regularise_table (table : PyVal) (spids : List String) : Except String PyVal :=
  match table with
  | PyVal.list xs => regularise_table_go spids xs
  | _ => Except.ok PyVal.none

/-! ## `common_scripts/llmcharjsonprocessor.py` -/

/-- The `char_json` result dict `\x7b'status': ..., 'data': ...\x7d`. -/
structure CharJson where
  status : String
  data : PyVal

/-- An inference-backend response, as an oracle: the raw text together with
the outcome of `json.loads` on it (`Option.none` models a
`json.decoder.JSONDecodeError`). -/
structure LLMResponse where
  raw : String
  decoded : Option PyVal

/-- `LLMCharJSONProcessor.parse_llm_response` (`llmcharjsonprocessor.py` lines
84-97): decode failure gives `invalid_json` with the raw text; a regulariser
result other than `None` gives `success` with that result; a `None` result
gives `bad_structure` with the stringified decoded value.  Exceptions other
than the decode error are not caught and propagate. -/
def parse_llm_response (resp : LLMResponse) (regulariser : PyVal → Except String PyVal) :
    Except String CharJson :=
  match resp.decoded with
  | Option.none => Except.ok { status := "invalid_json", data := PyVal.str resp.raw }
  | Option.some resp_json =>
    match regulariser resp_json with
    | Except.error e => Except.error e
    | Except.ok reg =>
      if !reg.isNone then Except.ok { status := "success", data := reg }
      else Except.ok { status := "bad_structure", data := PyVal.str (pyStr resp_json) }

/-! ## `common_scripts/accumulator.py` -/

/-- One generation call on the inference backend: `client.generate` (single
shot, via `prompt2charjson`) or `client.chat` (multi-turn, via
`messages2charjson`). -/
inductive GenCall where
  | generate
  | chat

/-- One entry of the `sp_chars` result log (`accumulator.py` lines 148-154):
`char_json` holds the data on success and `None` otherwise, `failed_str` the
other way round. -/
structure SpChar where
  coreid : String
  status : String
  original_description : String
  char_json : PyVal
  failed_str : PyVal

/-- The mutable state of a `TraitAccumulator` (prompts, the characteristic
list history, and the result log).  `f_prompt` is only used by
`FollowupTraitAccumulator`.  A charlist entry is a list of the
`'characteristic'` values of a regularised response, which Python does not
constrain to be strings. -/
structure AccumState where
  sys_prompt : String
  init_prompt : String
  accum_prompt : String
  f_prompt : String
  charlist_history : List (List PyVal)
  sp_chars : List SpChar

/-- The list comprehension `[char['characteristic'] for char in data]`
(`accumulator.py` line 138): raises on a non-list or on elements without the
key. -/
def charlistOf : PyVal → Except String (List PyVal)
  | PyVal.list xs => charlistOf_go xs
  | _ => Except.error "TypeError"
where
  charlistOf_go : List PyVal → Except String (List PyVal)
  | [] => Except.ok []
  | x :: rest =>
    match x with
    | PyVal.dict kvs =>
      match dictFind kvs "characteristic" with
      | Option.some v =>
        match charlistOf_go rest with
        | Except.ok tail => Except.ok (v :: tail)
        | Except.error e => Except.error e
      | Option.none => Except.error "KeyError"
    | _ => Except.error "TypeError"

/-- `TraitAccumulator.accum_step` (`accumulator.py` lines 91-162), with the
backend modelled by the `resp` oracle.  Returns the Python return value (or
the uncaught exception), the object state after the call, and the generation
calls issued.  The empty-history check precedes prompt construction
(`'; '.join(last_charlist)`, which raises on non-string entries), which
precedes the single `client.generate` call; with `store_results` the
candidate charlist replaces the latest entry only when strictly longer,
otherwise the latest entry is duplicated. -/
def accum_step (st : AccumState) (spid desc : String) (resp : LLMResponse)
    (store_results : Bool) : Except String CharJson × AccumState × List GenCall :=
  if st.charlist_history.isEmpty then
    (Except.error "Charlist has not been initialised. You must run extract_init_chars() first before running accum_step().",
     st, [])
  else
    let last_charlist := st.charlist_history.getLastD []
    match pyJoin "; " last_charlist with
    | Except.error e => (Except.error e, st, [])
    | Except.ok charlist_str =>
      let _prompt_wcontent :=
        (st.accum_prompt.replace "[DESCRIPTION]" desc).replace "[CHARACTER_LIST]" charlist_str
      match parse_llm_response resp regularise_charjson with
      | Except.error e => (Except.error e, st, [GenCall.generate])
      | Except.ok char_json =>
        if store_results then
          match (if char_json.status = "success" then charlistOf char_json.data
                 else Except.ok last_charlist) with
          | Except.error e => (Except.error e, st, [GenCall.generate])
          | Except.ok nc =>
            let new_charlist := if nc.length > last_charlist.length then nc else last_charlist
            (Except.ok char_json,
             { st with
                charlist_history := st.charlist_history ++ [new_charlist],
                sp_chars := st.sp_chars ++ [{
                  coreid := spid,
                  status := char_json.status,
                  original_description := desc,
                  char_json := if char_json.status = "success" then char_json.data else PyVal.none,
                  failed_str := if char_json.status ≠ "success" then char_json.data else PyVal.none }] },
             [GenCall.generate])
        else (Except.ok char_json, st, [GenCall.generate])

/-- A sequence of `accum_step` calls with `store_results` enabled, one
`(spid, desc, response)` triple per call. -/
def accum_run (st : AccumState) (steps : List (String × String × LLMResponse)) : AccumState :=
  steps.foldl (fun s p => (accum_step s p.1 p.2.1 p.2.2 true).2.1) st

/-- Rendering of a regularised record list to one `"name: value"` line per
record, as the corrective-prompt rendering of spec 4.2. -/
def renderRecords (char_json : PyVal) : String :=
  match char_json with
  | PyVal.list xs =>
      String.intercalate "\n" (xs.map (fun char =>
        match char with
        | PyVal.dict kvs => pyStr (dictGet kvs "characteristic") ++ ": " ++ pyStr (dictGet kvs "value")
        | _ => ""))
  | _ => ""

/-- Modelled from the spec: `common_scripts/process_words.py` (the module
defining `process_words.get_omissions` used by `accumulator.py` line 347) is
not present under `src/`.  Per spec 4.2 the omission detector renders the
record set to a flat string with one `"name: value"` line per record and
returns the set difference (source-text token set) minus (rendering token
set); the text normalisation (tokenise, drop stop words, singularise —
built on external NLP libraries and corpora) is abstracted as `ws`. -/
def process_words_get_omissions (ws : String → Finset String) (desc : String)
    (char_json : PyVal) : Finset String :=
  ws desc \ ws (renderRecords char_json)

/-- `FollowupTraitAccumulator.accum_step` (`accumulator.py` lines 300-397):
one initial single-shot pass through the superclass step (without storing),
then — only when the initial status is `'success'` — an omission computation,
a corrective prompt, and one multi-turn pass whose non-success status gets
the `'_followup'` suffix; finally the same store logic as the base step.
The message list handed to `client.chat` is text fed to the external
backend, which is modelled by the `resp2` oracle. -/
def followup_accum_step (st : AccumState) (spid desc : String)
    (resp1 resp2 : LLMResponse) (ws : String → Finset String) (store_results : Bool) :
    Except String CharJson × AccumState × List GenCall :=
  match accum_step st spid desc resp1 false with
  | (Except.error e, _, calls) => (Except.error e, st, calls)
  | (Except.ok init_cj, _, _) =>
    let calls := [GenCall.generate]
    let last_charlist := st.charlist_history.getLastD []
    let step2 : Except String CharJson × List GenCall :=
      if init_cj.status ≠ "success" then
        (Except.ok init_cj, calls)
      else
        match pyJoin "; " last_charlist with
        | Except.error e => (Except.error e, calls)
        | Except.ok charlist_str =>
          let omissions := process_words_get_omissions ws desc init_cj.data
          let _followup_prompt :=
            ((st.f_prompt.replace "[DESCRIPTION]" desc).replace "[MISSING_WORDS]"
              (String.intercalate "; " (omissions.sort (fun a b => a ≤ b)))).replace
              "[CHARACTER_LIST]" charlist_str
          match parse_llm_response resp2 regularise_charjson with
          | Except.error e => (Except.error e, calls ++ [GenCall.chat])
          | Except.ok f0 =>
            let f_cj := if f0.status ≠ "success" then
                { f0 with status := f0.status ++ "_followup" } else f0
            (Except.ok f_cj, calls ++ [GenCall.chat])
    match step2 with
    | (Except.error e, calls2) => (Except.error e, st, calls2)
    | (Except.ok char_json, calls2) =>
      if store_results then
        match (if char_json.status = "success" then charlistOf char_json.data
               else Except.ok last_charlist) with
        | Except.error e => (Except.error e, st, calls2)
        | Except.ok nc =>
          let new_charlist := if nc.length > last_charlist.length then nc else last_charlist
          (Except.ok char_json,
           { st with
              charlist_history := st.charlist_history ++ [new_charlist],
              sp_chars := st.sp_chars ++ [{
                coreid := spid,
                status := char_json.status,
                original_description := desc,
                char_json := if char_json.status = "success" then char_json.data else PyVal.none,
                failed_str := if char_json.status ≠ "success" then char_json.data else PyVal.none }] },
           calls2)
      else (Except.ok char_json, st, calls2)

/-! ## `desc2matrix_followup.py` -/

/-- The `compiled_charstr` local of `get_omissions` (`desc2matrix_followup.py`
line 134): `'\x7b\x7d: \x7b\x7d'.format(...)` per record, joined by newlines; raises on a
non-dict record or a missing key. -/
def compiled_charstr (char_json : List PyVal) : Except String String :=
  match char_json.mapM (fun char =>
      match char with
      | PyVal.dict kvs =>
        match dictFind kvs "characteristic", dictFind kvs "value" with
        | Option.some c, Option.some v => Except.ok (pyStr c ++ ": " ++ pyStr v)
        | _, _ => Except.error "KeyError"
      | _ => Except.error "TypeError") with
  | Except.ok lines => Except.ok (String.intercalate "\n" lines)
  | Except.error e => Except.error e

/-- `get_omissions` of `desc2matrix_followup.py` (lines 132-144), with the
nltk/inflect based `get_word_set` (lines 100-129, external NLP corpora)
abstracted as `ws`.  The source computes the local variable `omissions`
but its final line is the comment `# Return set` with no return statement,
so the Python function returns `None`. -/
def get_omissions (ws : String → Finset String) (desc : String) (char_json : List PyVal) :
    Except String (Option (Finset String)) :=
  match compiled_charstr char_json with
  | Except.error e => Except.error e
  | Except.ok cs =>
    let out_words := ws cs
    let desc_words := ws desc
    let _omissions := desc_words \ out_words
    Except.ok Option.none

/-! ## Claim-side predicates for the flat regulariser -/

/-- An element shaped as the flat variant expects: a dict whose key set is
exactly `\x7b'characteristic', 'value'\x7d`. -/
def isRecordDict (x : PyVal) : Bool :=
  match x with
  | PyVal.dict kvs => keySetEq (kvs.map Prod.fst) ["characteristic", "value"]
  | _ => false

/-- A record whose `'value'` is not null (the records the regulariser
retains). -/
def keepNonNull (x : PyVal) : Bool :=
  match x with
  | PyVal.dict kvs => !(dictGet kvs "value").isNone
  | _ => false

/-- The regulariser's normalisation of one retained record: the `'value'`
entry coerced to a string, everything else untouched. -/
def coerceValue (x : PyVal) : PyVal :=
  match x with
  | PyVal.dict kvs =>
      PyVal.dict (dictSet kvs "value" (PyVal.str (pyStr (dictGet kvs "value"))))
  | _ => x

/-- Every pair keyed `'value'` in `kvs` carries exactly the string `s`. -/
def valuePairsAre (kvs : List (String × PyVal)) (s : String) : Bool :=
  kvs.all (fun p => (!(decide (p.1 = "value"))) ||
    (match p.2 with | PyVal.str t => decide (t = s) | _ => false))

/-- A record as it appears in a regularised output: expected key set and a
string `'value'`. -/
def regularisedRecord (y : PyVal) : Bool :=
  match y with
  | PyVal.dict kvs =>
    keySetEq (kvs.map Prod.fst) ["characteristic", "value"] &&
    (match dictFind kvs "value" with
     | Option.some (PyVal.str s) => valuePairsAre kvs s
     | _ => false)
  | _ => false

/-- Extraction of a record's characteristic name (claim side). -/
def recCharacteristic (y : PyVal) : PyVal :=
  match y with
  | PyVal.dict kvs => dictGet kvs "characteristic"
  | _ => PyVal.none

/-- A correctly keyed record whose `'value'` is null. -/
def isNullRecord (x : PyVal) : Bool :=
  match x with
  | PyVal.dict kvs =>
    keySetEq (kvs.map Prod.fst) ["characteristic", "value"] &&
    (match dictFind kvs "value" with
     | Option.some v => v.isNone
     | Option.none => false)
  | _ => false

/-- Non-decreasing lengths along a charlist history: entry `k+1` is never
shorter than entry `k`. -/
def lenMonotone : List (List PyVal) → Bool
  | [] => true
  | [_] => true
  | a :: b :: rest => decide (a.length ≤ b.length) && lenMonotone (b :: rest)

/-- A trivial word-set function used to exhibit concrete behaviour of the
omission detector. -/
def singletonTokens : String → Finset String := fun s => {s}

/-- Character-wise lowercasing of a string (the claim side's `name.lower()`). -/
def strLower (s : String) : String := String.mk (s.data.map Char.toLower)

/-! ## Concrete states and responses for witnesses -/

def st0 : AccumState :=
  { sys_prompt := "You transcribe botanical descriptions."
    init_prompt := "initial: [DESCRIPTION]"
    accum_prompt := "accum: [DESCRIPTION] with [CHARACTER_LIST]"
    f_prompt := "follow-up: [DESCRIPTION] missing [MISSING_WORDS] with [CHARACTER_LIST]"
    charlist_history := [[PyVal.str "habit"]]
    sp_chars := [] }

def stUnseeded : AccumState :=
  { st0 with charlist_history := [] }

/-- A response that fails to decode as JSON. -/
def respInvalid : LLMResponse :=
  { raw := "this is not JSON", decoded := Option.none }

/-- A response decoding to an empty JSON array. -/
def respEmptyList : LLMResponse :=
  { raw := "[]", decoded := Option.some (PyVal.list []) }

/-- A response decoding to one well-keyed record. -/
def respOneChar : LLMResponse :=
  { raw := "[\x7b\"characteristic\": \"stem colour\", \"value\": \"green\"\x7d]"
    decoded := Option.some (PyVal.list
      [PyVal.dict [("characteristic", PyVal.str "stem colour"), ("value", PyVal.str "green")]]) }

/-- A response decoding to two well-keyed records. -/
def respTwoChars : LLMResponse :=
  { raw := "[...]"
    decoded := Option.some (PyVal.list
      [PyVal.dict [("characteristic", PyVal.str "habit"), ("value", PyVal.str "tree")],
       PyVal.dict [("characteristic", PyVal.str "leaf shape"), ("value", PyVal.str "ovate")]]) }

/-! ## Dictionary lemmas -/

lemma mem_keys_of_keySetEq {kvs : List (String × PyVal)} {es : List String}
    (h : keySetEq (kvs.map Prod.fst) es = true) {e : String} (he : e ∈ es) :
    ∃ p ∈ kvs, p.1 = e := by
  unfold keySetEq at h
  rw [Bool.and_eq_true] at h
  have hc := List.all_eq_true.mp h.2 e he
  have hmem : e ∈ kvs.map Prod.fst := by simpa using hc
  obtain ⟨p, hp, rfl⟩ := List.mem_map.mp hmem
  exact ⟨p, hp, rfl⟩

lemma dictFind_eq_some_of_keySetEq {kvs : List (String × PyVal)} {es : List String}
    (h : keySetEq (kvs.map Prod.fst) es = true) {e : String} (he : e ∈ es) :
    ∃ v, dictFind kvs e = Option.some v := by
  obtain ⟨p, hp, hpe⟩ := mem_keys_of_keySetEq h he
  have hsome : (kvs.find? (fun q => decide (q.1 = e))).isSome := by
    rw [List.find?_isSome]
    exact ⟨p, hp, by simp [hpe]⟩
  obtain ⟨q, hq⟩ := Option.isSome_iff_exists.mp hsome
  exact ⟨q.2, by simp [dictFind, hq]⟩

lemma dict_any_of_find {kvs : List (String × PyVal)} {k : String} {v : PyVal}
    (h : dictFind kvs k = Option.some v) : kvs.any (fun p => decide (p.1 = k)) = true := by
  unfold dictFind at h
  cases hf : kvs.find? (fun p => decide (p.1 = k)) with
  | none => rw [hf] at h; simp at h
  | some p =>
    have hp := List.mem_of_find?_eq_some hf
    have hpk := List.find?_some hf
    exact List.any_eq_true.mpr ⟨p, hp, hpk⟩

lemma dictSet_keys {kvs : List (String × PyVal)} {k : String} (v : PyVal)
    (h : kvs.any (fun p => decide (p.1 = k)) = true) :
    (dictSet kvs k v).map Prod.fst = kvs.map Prod.fst := by
  unfold dictSet
  rw [if_pos h, List.map_map]
  refine List.map_congr_left ?_
  intro p _
  by_cases hpk : p.1 = k
  · simp [hpk]
  · simp [hpk]

lemma find_map_set_self {k : String} (v : PyVal) :
    ∀ kvs : List (String × PyVal), kvs.any (fun p => decide (p.1 = k)) = true →
      (kvs.map (fun p => if p.1 = k then (k, v) else p)).find? (fun p => decide (p.1 = k)) =
        Option.some (k, v)
  | [], h => by simp at h
  | p :: rest, h => by
    by_cases hpk : p.1 = k
    · simp [hpk]
    · rw [List.any_cons] at h
      simp only [hpk, decide_False, Bool.false_or] at h
      simp only [List.map_cons, if_neg hpk]
      rw [List.find?_cons_of_neg _ (by simpa using hpk)]
      exact find_map_set_self v rest h

lemma dictFind_dictSet_self {kvs : List (String × PyVal)} {k : String} (v : PyVal)
    (h : kvs.any (fun p => decide (p.1 = k)) = true) :
    dictFind (dictSet kvs k v) k = Option.some v := by
  unfold dictSet dictFind
  rw [if_pos h, find_map_set_self v kvs h]
  rfl

lemma find_map_set_other {k k2 : String} (v : PyVal) (hne : k2 ≠ k) :
    ∀ kvs : List (String × PyVal),
      (List.find? (fun p => decide (p.1 = k2))
          (kvs.map (fun p => if p.1 = k then (k, v) else p))).map Prod.snd =
        (List.find? (fun p => decide (p.1 = k2)) kvs).map Prod.snd
  | [] => rfl
  | p :: rest => by
    have hkk2 : ¬ k = k2 := fun hh => hne hh.symm
    by_cases hpk : p.1 = k
    · have h3 : ¬ p.1 = k2 := by rw [hpk]; exact hkk2
      simp only [List.map_cons, if_pos hpk]
      rw [List.find?_cons_of_neg _ (by simpa using hkk2),
          List.find?_cons_of_neg _ (by simpa using h3)]
      exact find_map_set_other v hne rest
    · simp only [List.map_cons, if_neg hpk]
      by_cases hpk2 : p.1 = k2
      · rw [List.find?_cons_of_pos _ (by simpa using hpk2),
            List.find?_cons_of_pos _ (by simpa using hpk2)]
      · rw [List.find?_cons_of_neg _ (by simpa using hpk2),
            List.find?_cons_of_neg _ (by simpa using hpk2)]
        exact find_map_set_other v hne rest

lemma dictFind_dictSet_other {kvs : List (String × PyVal)} {k k2 : String} (v : PyVal)
    (hne : k2 ≠ k) :
    dictFind (dictSet kvs k v) k2 = dictFind kvs k2 := by
  unfold dictSet dictFind
  by_cases hany : kvs.any (fun p => decide (p.1 = k)) = true
  · rw [if_pos hany]
    exact find_map_set_other v hne kvs
  · rw [if_neg hany, List.find?_append]
    have h2 : List.find? (fun p => decide (p.1 = k2)) [(k, v)] = Option.none := by
      rw [List.find?_cons_of_neg _ (by simpa using fun hh : k = k2 => hne hh.symm)]
      rfl
    rw [h2]
    cases kvs.find? (fun p => decide (p.1 = k2)) <;> rfl

lemma valuePairsAre_dictSet {kvs : List (String × PyVal)} {s : String} :
    valuePairsAre (dictSet kvs "value" (PyVal.str s)) s = true := by
  unfold dictSet valuePairsAre
  by_cases hany : kvs.any (fun p => decide (p.1 = "value")) = true
  · rw [if_pos hany, List.all_eq_true]
    intro p hp
    obtain ⟨q, _, rfl⟩ := List.mem_map.mp hp
    by_cases hq : q.1 = "value"
    · simp [hq]
    · simp [hq]
  · rw [if_neg hany, List.all_eq_true]
    intro p hp
    rcases List.mem_append.mp hp with hmem | hmem
    · by_cases hq : p.1 = "value"
      · exact absurd (List.any_eq_true.mpr ⟨p, hmem, by simp [hq]⟩) hany
      · simp [hq]
    · have hps : p = ("value", PyVal.str s) := by simpa using hmem
      simp [hps]

/-! ## Flat-regulariser lemmas -/

lemma regularise_charjson_go_spec :
    ∀ xs : List PyVal, xs.all isRecordDict = true →
      regularise_charjson_go xs =
        Except.ok (PyVal.list ((xs.filter keepNonNull).map coerceValue))
  | [], _ => rfl
  | x :: rest, h => by
    rw [List.all_cons, Bool.and_eq_true] at h
    obtain ⟨hx, hrest⟩ := h
    have ihr := regularise_charjson_go_spec rest hrest
    cases x with
    | dict kvs =>
      have hks : keySetEq (kvs.map Prod.fst) ["characteristic", "value"] = true := by
        simpa [isRecordDict] using hx
      obtain ⟨v, hv⟩ := dictFind_eq_some_of_keySetEq hks
        (show "value" ∈ ["characteristic", "value"] by simp)
      rw [regularise_charjson_go, if_pos hks, hv]
      dsimp only
      by_cases hnone : v.isNone = true
      · rw [if_pos hnone, ihr]
        have hkeep : keepNonNull (PyVal.dict kvs) = false := by
          simp [keepNonNull, dictGet, hv, hnone]
        rw [List.filter_cons_of_neg (by simp [hkeep])]
      · rw [if_neg hnone, ihr]
        have hkeep : keepNonNull (PyVal.dict kvs) = true := by
          simp [keepNonNull, dictGet, hv]
          simpa using hnone
        rw [List.filter_cons_of_pos (by simp [hkeep]), List.map_cons]
        simp [coerceValue, dictGet, hv]
    | none => simp [isRecordDict] at hx
    | bool b => simp [isRecordDict] at hx
    | int n => simp [isRecordDict] at hx
    | str s => simp [isRecordDict] at hx
    | list xs2 => simp [isRecordDict] at hx

lemma regularisedRecord_coerce {kvs : List (String × PyVal)} {v : PyVal}
    (hks : keySetEq (kvs.map Prod.fst) ["characteristic", "value"] = true)
    (hv : dictFind kvs "value" = Option.some v) :
    regularisedRecord (PyVal.dict (dictSet kvs "value" (PyVal.str (pyStr v)))) = true := by
  have hany := dict_any_of_find hv
  simp only [regularisedRecord]
  rw [dictSet_keys _ hany, dictFind_dictSet_self _ hany]
  simp [hks, valuePairsAre_dictSet]

lemma regularise_charjson_go_shape :
    ∀ xs ys : List PyVal, regularise_charjson_go xs = Except.ok (PyVal.list ys) →
      ys.all regularisedRecord = true
  | [], ys, h => by
    simp only [regularise_charjson_go, Except.ok.injEq, PyVal.list.injEq] at h
    rw [← h]
    rfl
  | x :: rest, ys, h => by
    cases x with
    | dict kvs =>
      rw [regularise_charjson_go] at h
      by_cases hks : keySetEq (kvs.map Prod.fst) ["characteristic", "value"] = true
      · rw [if_pos hks] at h
        cases hv : dictFind kvs "value" with
        | none => rw [hv] at h; exact Except.noConfusion h
        | some v =>
          rw [hv] at h
          dsimp only at h
          by_cases hnone : v.isNone = true
          · rw [if_pos hnone] at h
            exact regularise_charjson_go_shape rest ys h
          · rw [if_neg hnone] at h
            cases hrec : regularise_charjson_go rest with
            | error e => rw [hrec] at h; exact Except.noConfusion h
            | ok w =>
              cases w with
              | list ys2 =>
                rw [hrec] at h
                dsimp only at h
                simp only [Except.ok.injEq, PyVal.list.injEq] at h
                rw [← h, List.all_cons, Bool.and_eq_true]
                exact ⟨regularisedRecord_coerce hks hv,
                       regularise_charjson_go_shape rest ys2 hrec⟩
              | none => rw [hrec] at h; dsimp only at h; simp at h
              | bool b => rw [hrec] at h; dsimp only at h; simp at h
              | int n => rw [hrec] at h; dsimp only at h; simp at h
              | str s => rw [hrec] at h; dsimp only at h; simp at h
              | dict kvs2 => rw [hrec] at h; dsimp only at h; simp at h
      · rw [if_neg hks] at h
        simp at h
    | none => exact Except.noConfusion h
    | bool b => exact Except.noConfusion h
    | int n => exact Except.noConfusion h
    | str s => exact Except.noConfusion h
    | list xs2 => exact Except.noConfusion h

lemma regularisedRecord_facts {y : PyVal} (h : regularisedRecord y = true) :
    isRecordDict y = true ∧ keepNonNull y = true ∧ coerceValue y = y := by
  cases y with
  | dict kvs =>
    unfold regularisedRecord at h
    rw [Bool.and_eq_true] at h
    obtain ⟨hks, hmatch⟩ := h
    cases hv : dictFind kvs "value" with
    | none => rw [hv] at hmatch; simp at hmatch
    | some w =>
      rw [hv] at hmatch
      cases w with
      | str s =>
        refine ⟨by simpa [isRecordDict] using hks, ?_, ?_⟩
        · simp [keepNonNull, dictGet, hv, PyVal.isNone]
        · have hany := dict_any_of_find hv
          have hget : dictGet kvs "value" = PyVal.str s := by
            simp [dictGet, hv]
          simp only [coerceValue, hget]
          show PyVal.dict (dictSet kvs "value" (PyVal.str s)) = PyVal.dict kvs
          congr 1
          unfold dictSet
          rw [if_pos hany]
          have hpt : ∀ p ∈ kvs, (if p.1 = "value" then ("value", PyVal.str s) else p) = p := by
            intro p hp
            by_cases hpv : p.1 = "value"
            · rw [if_pos hpv]
              have hall := List.all_eq_true.mp hmatch p hp
              simp only [hpv, decide_True, Bool.not_true, Bool.false_or] at hall
              rw [Prod.ext_iff]
              refine ⟨hpv.symm, ?_⟩
              cases hpp : p.2 <;> rw [hpp] at hall <;> simp at hall
              simp [hall]
            · rw [if_neg hpv]
          rw [List.map_congr_left hpt]
          simp
      | none => simp at hmatch
      | bool b => simp at hmatch
      | int n => simp at hmatch
      | list xs => simp at hmatch
      | dict kvs2 => simp at hmatch
  | none => simp [regularisedRecord] at h
  | bool b => simp [regularisedRecord] at h
  | int n => simp [regularisedRecord] at h
  | str s => simp [regularisedRecord] at h
  | list xs => simp [regularisedRecord] at h

lemma regularisedRecord_dest {y : PyVal} (h : regularisedRecord y = true) :
    ∃ kvs s, y = PyVal.dict kvs ∧ dictFind kvs "value" = Option.some (PyVal.str s) := by
  cases y with
  | dict kvs =>
    unfold regularisedRecord at h
    rw [Bool.and_eq_true] at h
    obtain ⟨_, hmatch⟩ := h
    cases hv : dictFind kvs "value" with
    | none => rw [hv] at hmatch; simp at hmatch
    | some w =>
      rw [hv] at hmatch
      cases w with
      | str s => exact ⟨kvs, s, rfl, hv⟩
      | none => simp at hmatch
      | bool b => simp at hmatch
      | int n => simp at hmatch
      | list xs => simp at hmatch
      | dict kvs2 => simp at hmatch
  | none => simp [regularisedRecord] at h
  | bool b => simp [regularisedRecord] at h
  | int n => simp [regularisedRecord] at h
  | str s => simp [regularisedRecord] at h
  | list xs => simp [regularisedRecord] at h

/-- **C7.**  For every list input whose elements all have exactly the key set
`\x7b'characteristic', 'value'\x7d`, `regularise_charjson` returns the list obtained
by dropping every element whose value is null (`keepNonNull`) and coercing
every retained element's value to a string (`coerceValue`); a record with a
null value is never retained in a successful result. -/
theorem regularise_charjson_drops_null_and_stringifies
    (xs : List PyVal) (h : xs.all isRecordDict = true) :
    regularise_charjson (PyVal.list xs) =
      Except.ok (PyVal.list ((xs.filter keepNonNull).map coerceValue)) ∧
    ∀ y ∈ (xs.filter keepNonNull).map coerceValue,
      keepNonNull y = true ∧
      ∃ kvs s, y = PyVal.dict kvs ∧ dictFind kvs "value" = Option.some (PyVal.str s) := by
  have hgo := regularise_charjson_go_spec xs h
  refine ⟨hgo, ?_⟩
  have hshape := regularise_charjson_go_shape xs _ hgo
  intro y hy
  have hrec := List.all_eq_true.mp hshape y hy
  exact ⟨(regularisedRecord_facts hrec).2.1, regularisedRecord_dest hrec⟩

/-- Witness for C7 at a concrete two-record input, one record null-valued. -/
theorem regularise_charjson_drops_null_and_stringifies_witness :
    regularise_charjson (PyVal.list
        [PyVal.dict [("characteristic", PyVal.str "leaf shape"), ("value", PyVal.str "ovate")],
         PyVal.dict [("characteristic", PyVal.str "bract"), ("value", PyVal.none)]]) =
      Except.ok (PyVal.list (((
        [PyVal.dict [("characteristic", PyVal.str "leaf shape"), ("value", PyVal.str "ovate")],
         PyVal.dict [("characteristic", PyVal.str "bract"), ("value", PyVal.none)]]).filter
           keepNonNull).map coerceValue)) :=
  (regularise_charjson_drops_null_and_stringifies
    [PyVal.dict [("characteristic", PyVal.str "leaf shape"), ("value", PyVal.str "ovate")],
     PyVal.dict [("characteristic", PyVal.str "bract"), ("value", PyVal.none)]] (by rfl)).1

/-- **C9.**  `regularise_charjson` is idempotent on accepted inputs: when it
accepts `x`, returning a record list `ys` rather than a rejection, applying it
to `ys` returns `ys` unchanged. -/
theorem regularise_charjson_idempotent
    (x : PyVal) (ys : List PyVal)
    (h : regularise_charjson x = Except.ok (PyVal.list ys)) :
    regularise_charjson (PyVal.list ys) = Except.ok (PyVal.list ys) := by
  cases x with
  | list xs =>
    have hys := regularise_charjson_go_shape xs ys h
    have hrec : ∀ y ∈ ys, regularisedRecord y = true := fun y hy =>
      List.all_eq_true.mp hys y hy
    have hall : ys.all isRecordDict = true :=
      List.all_eq_true.mpr (fun y hy => (regularisedRecord_facts (hrec y hy)).1)
    have hfilter : ys.filter keepNonNull = ys :=
      List.filter_eq_self.mpr (fun y hy => (regularisedRecord_facts (hrec y hy)).2.1)
    have hmap : List.map coerceValue ys = ys := by
      rw [List.map_congr_left (fun y hy => (regularisedRecord_facts (hrec y hy)).2.2)]
      simp
    have hspec := regularise_charjson_go_spec ys hall
    show regularise_charjson_go ys = Except.ok (PyVal.list ys)
    rw [hspec, hfilter, hmap]
  | none => simp [regularise_charjson] at h
  | bool b => simp [regularise_charjson] at h
  | int n => simp [regularise_charjson] at h
  | str s => simp [regularise_charjson] at h
  | dict kvs => simp [regularise_charjson] at h

/-- Witness for C9: the regulariser accepts this input, and re-running it on
its own output returns the output unchanged. -/
theorem regularise_charjson_idempotent_witness :
    regularise_charjson (PyVal.list
        [PyVal.dict [("characteristic", PyVal.str "habit"), ("value", PyVal.str "tree")]]) =
      Except.ok (PyVal.list
        [PyVal.dict [("characteristic", PyVal.str "habit"), ("value", PyVal.str "tree")]]) :=
  regularise_charjson_idempotent
    (PyVal.list [PyVal.dict [("characteristic", PyVal.str "habit"), ("value", PyVal.str "tree")]])
    [PyVal.dict [("characteristic", PyVal.str "habit"), ("value", PyVal.str "tree")]]
    (by rfl)

/-- **C8 counterexample.**  The claim says every record accepted with status
`'success'` has a lowercase name.  The pipeline accepts this record with
status `'success'`, yet its characteristic name `"Fruit Shape"` differs from
its own lowercasing: the regulariser never lowercases names. -/
theorem regularise_name_not_lowercase_counterexample :
    parse_llm_response
      { raw := "[\x7b\"characteristic\": \"Fruit Shape\", \"value\": \"ovoid\"\x7d]"
        decoded := Option.some (PyVal.list
          [PyVal.dict [("characteristic", PyVal.str "Fruit Shape"), ("value", PyVal.str "ovoid")]]) }
      regularise_charjson =
      Except.ok
        { status := "success"
          data := PyVal.list
            [PyVal.dict
              [("characteristic", PyVal.str "Fruit Shape"), ("value", PyVal.str "ovoid")]] } ∧
    strLower "Fruit Shape" = "fruit shape" ∧ ¬ "Fruit Shape" = strLower "Fruit Shape" := by
  refine ⟨rfl, by decide, by decide⟩

/-- **C8 (amended).**  The regulariser does not lowercase characteristic
names: in every record set accepted by `regularise_charjson`, each retained
record's characteristic name is exactly the name of an input record,
unchanged. -/
theorem regularise_charjson_preserves_names
    (xs : List PyVal) (h : xs.all isRecordDict = true) :
    ∃ ys, regularise_charjson (PyVal.list xs) = Except.ok (PyVal.list ys) ∧
      ∀ y ∈ ys, ∃ x ∈ xs, recCharacteristic y = recCharacteristic x := by
  refine ⟨_, regularise_charjson_go_spec xs h, ?_⟩
  intro y hy
  obtain ⟨x, hx, rfl⟩ := List.mem_map.mp hy
  refine ⟨x, List.mem_of_mem_filter hx, ?_⟩
  have hxd := List.all_eq_true.mp h x (List.mem_of_mem_filter hx)
  cases x with
  | dict kvs =>
    simp only [coerceValue, recCharacteristic]
    unfold dictGet
    rw [dictFind_dictSet_other _ (by decide : "characteristic" ≠ "value")]
  | none => simp [isRecordDict] at hxd
  | bool b => simp [isRecordDict] at hxd
  | int n => simp [isRecordDict] at hxd
  | str s => simp [isRecordDict] at hxd
  | list xs2 => simp [isRecordDict] at hxd

/-- Witness for the amended C8 at a concrete mixed-case input. -/
theorem regularise_charjson_preserves_names_witness :
    ∃ ys, regularise_charjson (PyVal.list
        [PyVal.dict [("characteristic", PyVal.str "Fruit Shape"), ("value", PyVal.str "ovoid")]]) =
      Except.ok (PyVal.list ys) ∧
      ∀ y ∈ ys, ∃ x ∈ [PyVal.dict
          [("characteristic", PyVal.str "Fruit Shape"), ("value", PyVal.str "ovoid")]],
        recCharacteristic y = recCharacteristic x :=
  regularise_charjson_preserves_names
    [PyVal.dict [("characteristic", PyVal.str "Fruit Shape"), ("value", PyVal.str "ovoid")]]
    (by rfl)

/-- **C2 (code-bug evidence).**  The decoded value `[\x7b"foo": "bar"\x7d]` has an
element whose key set differs from `\x7b'characteristic', 'values'\x7d`, so the claim
(and the docstring of `regularise_table`) require status `'bad_structure'`.
Instead `regularise_table` returns Python `False` where its docstring says
`None`, and `parse_llm_response` only treats `None` as bad structure
(`reg_resp_json != None`), so the response is classified `'success'` with
`data = False`. -/
theorem regularise_table_bad_keys_classified_success :
    parse_llm_response
      { raw := "[\x7b\"foo\": \"bar\"\x7d]"
        decoded := Option.some (PyVal.list [PyVal.dict [("foo", PyVal.str "bar")]]) }
      (fun v => regularise_table v ["A"]) =
      Except.ok { status := "success", data := PyVal.bool false } := rfl

/-- **C3 (code-bug evidence).**  `get_omissions` of `desc2matrix_followup.py`
computes the token-set difference into the local variable `omissions` but ends
at the comment `# Return set` with no return statement, so it returns `None`
for every input — never the set difference the claim describes.  Here, on
source text `"red leaf"` and an empty record list, the set difference under
`singletonTokens` is nonempty, yet the function returns `None`. -/
theorem get_omissions_returns_none :
    get_omissions singletonTokens "red leaf" [] = Except.ok Option.none ∧
    ¬ get_omissions singletonTokens "red leaf" [] =
        Except.ok (Option.some (singletonTokens "red leaf" \ singletonTokens "")) := by
  have h0 : get_omissions singletonTokens "red leaf" [] = Except.ok Option.none := rfl
  refine ⟨h0, ?_⟩
  intro h
  rw [h0] at h
  simp only [Except.ok.injEq] at h
  exact Option.noConfusion h

/-! ## Accumulator lemmas -/

lemma lenMonotone_append :
    ∀ (l : List (List PyVal)) (x : List PyVal), lenMonotone l = true →
      (l.getLastD []).length ≤ x.length → lenMonotone (l ++ [x]) = true
  | [], _, _, _ => rfl
  | [a], x, _, hx => by
    simp only [List.cons_append, List.nil_append, lenMonotone, Bool.and_eq_true, decide_eq_true_eq]
    exact ⟨hx, trivial⟩
  | a :: b :: rest, x, hl, hx => by
    rw [lenMonotone, Bool.and_eq_true] at hl
    have hx2 : ((b :: rest).getLastD []).length ≤ x.length := by
      simpa [List.getLastD_eq_getLast?, List.getLast?_cons_cons] using hx
    have ih := lenMonotone_append (b :: rest) x hl.2 hx2
    show lenMonotone (a :: ((b :: rest) ++ [x])) = true
    rw [List.cons_append, lenMonotone, Bool.and_eq_true]
    exact ⟨hl.1, by simpa using ih⟩

lemma accum_step_history (st : AccumState) (spid desc : String) (resp : LLMResponse)
    (store : Bool) :
    (accum_step st spid desc resp store).2.1.charlist_history = st.charlist_history ∨
    ∃ next, (accum_step st spid desc resp store).2.1.charlist_history =
        st.charlist_history ++ [next] ∧
      (st.charlist_history.getLastD []).length ≤ next.length := by
  unfold accum_step
  by_cases h1 : st.charlist_history.isEmpty = true
  · rw [if_pos h1]; left; rfl
  · rw [if_neg h1]
    try dsimp only
    cases hj : pyJoin "; " (st.charlist_history.getLastD []) with
    | error e => left; rfl
    | ok joinstr =>
      try dsimp only
      cases hp : parse_llm_response resp regularise_charjson with
      | error e => left; rfl
      | ok cj =>
        try dsimp only
        cases store with
        | false => left; rfl
        | true =>
          try dsimp only
          cases hc : (if cj.status = "success" then charlistOf cj.data
                      else Except.ok (st.charlist_history.getLastD [])) with
          | error e => left; rfl
          | ok nc =>
            try dsimp only
            right
            refine ⟨if nc.length > (st.charlist_history.getLastD []).length then nc
                    else st.charlist_history.getLastD [], rfl, ?_⟩
            by_cases hlen : nc.length > (st.charlist_history.getLastD []).length
            · rw [if_pos hlen]; omega
            · rw [if_neg hlen]

lemma accum_step_monotone (st : AccumState) (spid desc : String) (resp : LLMResponse)
    (store : Bool) (h : lenMonotone st.charlist_history = true) :
    lenMonotone (accum_step st spid desc resp store).2.1.charlist_history = true := by
  rcases accum_step_history st spid desc resp store with heq | ⟨next, heq, hle⟩
  · rw [heq]; exact h
  · rw [heq]; exact lenMonotone_append _ _ h hle

lemma accum_run_monotone :
    ∀ (steps : List (String × String × LLMResponse)) (st : AccumState),
      lenMonotone st.charlist_history = true →
      lenMonotone (accum_run st steps).charlist_history = true
  | [], _, h => h
  | p :: ps, st, h =>
    accum_run_monotone ps _ (accum_step_monotone st p.1 p.2.1 p.2.2 true h)

/-- **C1.**  For every seeded `TraitAccumulator` (nonempty, monotone charlist
history) and every sequence of `accum_step` calls with `store_results`
enabled, whatever mix of successful and failed steps, the charlist history is
monotone: `len(history[k+1]) >= len(history[k])` for every `k`.  Moreover any
single step that returns normally appends exactly one entry, never shorter
than the latest entry, and a step whose candidate name list is not strictly
longer than the latest entry appends a duplicate of that entry. -/
theorem charlist_history_monotone
    (st : AccumState) (hseed : st.charlist_history.isEmpty = false)
    (hmono : lenMonotone st.charlist_history = true)
    (steps : List (String × String × LLMResponse)) :
    lenMonotone (accum_run st steps).charlist_history = true ∧
    ∀ spid desc resp cj st2 calls,
      accum_step st spid desc resp true = (Except.ok cj, st2, calls) →
      ∃ next, st2.charlist_history = st.charlist_history ++ [next] ∧
        (st.charlist_history.getLastD []).length ≤ next.length ∧
        ∀ nc, (if cj.status = "success" then charlistOf cj.data
               else Except.ok (st.charlist_history.getLastD [])) = Except.ok nc →
          ¬ (st.charlist_history.getLastD []).length < nc.length →
          next = st.charlist_history.getLastD [] := by
  refine ⟨accum_run_monotone steps st hmono, ?_⟩
  intro spid desc resp cj st2 calls h
  unfold accum_step at h
  rw [if_neg (by simp [hseed])] at h
  try dsimp only at h
  cases hj : pyJoin "; " (st.charlist_history.getLastD []) with
  | error e => rw [hj] at h; try dsimp only at h; simp at h
  | ok joinstr =>
    rw [hj] at h
    try dsimp only at h
    cases hp : parse_llm_response resp regularise_charjson with
    | error e => rw [hp] at h; try dsimp only at h; simp at h
    | ok cj0 =>
      rw [hp] at h
      try dsimp only at h
      cases hc : (if cj0.status = "success" then charlistOf cj0.data
                  else Except.ok (st.charlist_history.getLastD [])) with
      | error e => rw [hc] at h; try dsimp only at h; simp at h
      | ok nc0 =>
        rw [hc] at h
        try dsimp only at h
        rw [Prod.mk.injEq, Prod.mk.injEq] at h
        obtain ⟨h1, h2, h3⟩ := h
        have hcj : cj0 = cj := by
          injection h1
        subst hcj
        refine ⟨if nc0.length > (st.charlist_history.getLastD []).length then nc0
                else st.charlist_history.getLastD [], ?_, ?_, ?_⟩
        · rw [← h2]
          rfl
        · by_cases hlen : nc0.length > (st.charlist_history.getLastD []).length
          · rw [if_pos hlen]; omega
          · rw [if_neg hlen]
        · intro nc hnc hlt
          have hnn : Except.ok nc0 = Except.ok (α := List PyVal) (ε := String) nc :=
            hc.symm.trans hnc
          have hnc0 : nc0 = nc := by injection hnn
          subst hnc0
          rw [if_neg hlt]

/-- Witness for C1: a seeded accumulator run over one successful step (two
characteristics) followed by one `invalid_json` step keeps the history
monotone. -/
theorem charlist_history_monotone_witness :
    lenMonotone (accum_run st0 [("sp1", "desc one", respTwoChars),
      ("sp2", "desc two", respInvalid)]).charlist_history = true :=
  (charlist_history_monotone st0 rfl rfl
    [("sp1", "desc one", respTwoChars), ("sp2", "desc two", respInvalid)]).1

/-- **C4.**  Calling `accum_step` on an accumulator whose `charlist_history`
is empty (seeding never performed) raises the initialisation exception before
any generation call is issued (the call list is empty) and leaves the state —
`sp_chars` and `charlist_history` — unchanged. -/
theorem accum_step_uninitialised
    (st : AccumState) (spid desc : String) (resp : LLMResponse) (store_results : Bool)
    (h : st.charlist_history.isEmpty = true) :
    accum_step st spid desc resp store_results =
      (Except.error "Charlist has not been initialised. You must run extract_init_chars() first before running accum_step().",
       st, []) := by
  unfold accum_step
  rw [if_pos h]

/-- Witness for C4 on a concrete unseeded accumulator. -/
theorem accum_step_uninitialised_witness :
    accum_step stUnseeded "wfo-0001" "Leaves alternate." respInvalid true =
      (Except.error "Charlist has not been initialised. You must run extract_init_chars() first before running accum_step().",
       stUnseeded, []) :=
  accum_step_uninitialised stUnseeded "wfo-0001" "Leaves alternate." respInvalid true rfl

lemma regularise_charjson_go_null :
    ∀ xs : List PyVal, xs.all isNullRecord = true →
      regularise_charjson_go xs = Except.ok (PyVal.list [])
  | [], _ => rfl
  | x :: rest, h => by
    rw [List.all_cons, Bool.and_eq_true] at h
    obtain ⟨hx, hrest⟩ := h
    cases x with
    | dict kvs =>
      unfold isNullRecord at hx
      rw [Bool.and_eq_true] at hx
      obtain ⟨hks, hvn⟩ := hx
      cases hv : dictFind kvs "value" with
      | none => rw [hv] at hvn; simp at hvn
      | some v =>
        rw [hv] at hvn
        rw [regularise_charjson_go, if_pos hks, hv]
        dsimp only
        rw [if_pos (by simpa using hvn)]
        exact regularise_charjson_go_null rest hrest
    | none => simp [isNullRecord] at hx
    | bool b => simp [isNullRecord] at hx
    | int n => simp [isNullRecord] at hx
    | str s => simp [isNullRecord] at hx
    | list xs2 => simp [isNullRecord] at hx

/-- **C10.**  A raw response decoding to an empty JSON array, or to
correctly keyed records whose values are all null, regularises to status
`'success'` with an empty record list (not `'bad_structure'`); an
accumulation step then treats it as a success whose candidate charlist is
empty and appends a duplicate of the previous charlist entry. -/
theorem empty_or_null_response_success_duplicates
    (st : AccumState) (spid desc joinstr : String) (resp : LLMResponse) (xs : List PyVal)
    (hseed : st.charlist_history.isEmpty = false)
    (hjoin : pyJoin "; " (st.charlist_history.getLastD []) = Except.ok joinstr)
    (hdec : resp.decoded = Option.some (PyVal.list xs))
    (hnull : xs.all isNullRecord = true) :
    parse_llm_response resp regularise_charjson =
      Except.ok { status := "success", data := PyVal.list [] } ∧
    ∃ st2, accum_step st spid desc resp true =
        (Except.ok { status := "success", data := PyVal.list [] }, st2, [GenCall.generate]) ∧
      st2.charlist_history = st.charlist_history ++ [st.charlist_history.getLastD []] ∧
      st2.sp_chars = st.sp_chars ++
        [SpChar.mk spid "success" desc (PyVal.list []) PyVal.none] := by
  have hreg : regularise_charjson (PyVal.list xs) = Except.ok (PyVal.list []) :=
    regularise_charjson_go_null xs hnull
  have hparse : parse_llm_response resp regularise_charjson =
      Except.ok { status := "success", data := PyVal.list [] } := by
    unfold parse_llm_response
    rw [hdec]
    dsimp only
    rw [hreg]
    rfl
  refine ⟨hparse, ?_⟩
  unfold accum_step
  rw [if_neg (by simp [hseed])]
  try dsimp only
  rw [hjoin]
  try dsimp only
  rw [hparse]
  try dsimp only
  rw [if_pos (rfl : "success" = "success")]
  rw [show charlistOf (PyVal.list []) = Except.ok [] from rfl]
  try dsimp only
  rw [if_neg (show ¬ ([] : List PyVal).length > (st.charlist_history.getLastD []).length
        from by simp)]
  exact ⟨_, rfl, rfl, rfl⟩

/-- Witness for C10 at the empty-array response and a concrete seeded
accumulator. -/
theorem empty_or_null_response_success_duplicates_witness :
    parse_llm_response respEmptyList regularise_charjson =
      Except.ok { status := "success", data := PyVal.list [] } ∧
    ∃ st2, accum_step st0 "sp1" "desc one" respEmptyList true =
        (Except.ok { status := "success", data := PyVal.list [] }, st2, [GenCall.generate]) ∧
      st2.charlist_history = st0.charlist_history ++ [st0.charlist_history.getLastD []] ∧
      st2.sp_chars = st0.sp_chars ++
        [SpChar.mk "sp1" "success" "desc one" (PyVal.list []) PyVal.none] :=
  empty_or_null_response_success_duplicates st0 "sp1" "desc one" "habit" respEmptyList []
    rfl rfl rfl rfl

/-! ## Follow-up controller lemmas -/

lemma accum_step_nostore
    (st : AccumState) (spid desc joinstr : String) (resp : LLMResponse) (cj : CharJson)
    (hseed : st.charlist_history.isEmpty = false)
    (hjoin : pyJoin "; " (st.charlist_history.getLastD []) = Except.ok joinstr)
    (hp : parse_llm_response resp regularise_charjson = Except.ok cj) :
    accum_step st spid desc resp false = (Except.ok cj, st, [GenCall.generate]) := by
  unfold accum_step
  rw [if_neg (by simp [hseed])]
  try dsimp only
  rw [hjoin]
  try dsimp only
  rw [hp]
  rfl

lemma parse_status_cases (resp : LLMResponse) (reg : PyVal → Except String PyVal)
    (cj : CharJson) (h : parse_llm_response resp reg = Except.ok cj) :
    cj.status = "success" ∨ cj.status = "bad_structure" ∨ cj.status = "invalid_json" := by
  unfold parse_llm_response at h
  cases hd : resp.decoded with
  | none =>
    rw [hd] at h
    try dsimp only at h
    right; right
    injection h with h1
    rw [← h1]
  | some rj =>
    rw [hd] at h
    try dsimp only at h
    cases hr : reg rj with
    | error e =>
      rw [hr] at h
      try dsimp only at h
      exact Except.noConfusion h
    | ok r =>
      rw [hr] at h
      try dsimp only at h
      by_cases hn : (!r.isNone) = true
      · rw [if_pos hn] at h
        left
        injection h with h1
        rw [← h1]
      · rw [if_neg hn] at h
        right; left
        injection h with h1
        rw [← h1]

/-- **C5.**  For every sample processed by the follow-up controller from a
seeded state: if the initial response's regularised status is not
`'success'`, the initial result is returned unchanged and no corrective call
is made — exactly one outbound generation call occurs; if the initial status
is `'success'`, exactly two outbound generation calls occur, the second
through the multi-turn (`chat`) interface. -/
theorem followup_one_call_on_failure_two_on_success
    (st : AccumState) (spid desc joinstr : String) (resp1 resp2 : LLMResponse)
    (ws : String → Finset String) (store_results : Bool) (cj1 : CharJson)
    (hseed : st.charlist_history.isEmpty = false)
    (hjoin : pyJoin "; " (st.charlist_history.getLastD []) = Except.ok joinstr)
    (h1 : parse_llm_response resp1 regularise_charjson = Except.ok cj1) :
    (cj1.status ≠ "success" →
      (followup_accum_step st spid desc resp1 resp2 ws store_results).1 = Except.ok cj1 ∧
      (followup_accum_step st spid desc resp1 resp2 ws store_results).2.2 =
        [GenCall.generate]) ∧
    (cj1.status = "success" →
      (followup_accum_step st spid desc resp1 resp2 ws store_results).2.2 =
        [GenCall.generate, GenCall.chat]) := by
  have hsuper := accum_step_nostore st spid desc joinstr resp1 cj1 hseed hjoin h1
  unfold followup_accum_step
  rw [hsuper]
  try dsimp only
  constructor
  · intro hns
    rw [if_pos hns]
    try dsimp only
    cases store_results with
    | false => exact ⟨rfl, rfl⟩
    | true =>
      try dsimp only
      rw [if_neg hns]
      try dsimp only
      exact ⟨rfl, rfl⟩
  · intro hs
    rw [if_neg (by simp [hs])]
    try dsimp only
    rw [hjoin]
    try dsimp only
    cases hp2 : parse_llm_response resp2 regularise_charjson with
    | error e =>
      try dsimp only
      rfl
    | ok f0 =>
      try dsimp only
      have hcases := parse_status_cases resp2 regularise_charjson f0 hp2
      by_cases hf : f0.status ≠ "success"
      · rw [if_pos hf]
        try dsimp only
        cases store_results with
        | false => rfl
        | true =>
          have hne : ¬ ((f0.status ++ "_followup") = "success") := by
            rcases hcases with h | h | h
            · exact absurd h hf
            · rw [h]; decide
            · rw [h]; decide
          try dsimp only
          rw [if_neg hne]
          try dsimp only
          rw [if_neg (Nat.lt_irrefl (st.charlist_history.getLastD []).length)]
          rfl
      · rw [if_neg hf]
        try dsimp only
        cases store_results with
        | false => rfl
        | true =>
          try dsimp only
          rw [if_pos (not_not.mp hf)]
          cases hco : charlistOf f0.data with
          | error e =>
            try dsimp only
            rfl
          | ok nc =>
            try dsimp only
            rfl

/-- Witness for C5: on an initial `invalid_json` response from a seeded
state, the follow-up controller issues exactly one single-shot generation
call. -/
theorem followup_one_call_on_failure_two_on_success_witness :
    (followup_accum_step st0 "sp1" "desc one" respInvalid respEmptyList
      singletonTokens true).2.2 = [GenCall.generate] :=
  ((followup_one_call_on_failure_two_on_success st0 "sp1" "desc one" "habit"
      respInvalid respEmptyList singletonTokens true
      { status := "invalid_json", data := PyVal.str "this is not JSON" }
      rfl rfl rfl).1 (by decide)).2

/-- **C6.**  Whenever a corrective (follow-up) pass is issued (the initial
status is `'success'`) and the follow-up response's regularised status is not
`'success'`, the returned and stored status is that status with the
`'_followup'` suffix — `'bad_structure_followup'` or
`'invalid_json_followup'` — so a corrective-stage failure is never recorded
under an initial-stage status code. -/
theorem followup_failure_status_suffixed
    (st : AccumState) (spid desc joinstr : String) (resp1 resp2 : LLMResponse)
    (ws : String → Finset String) (cj1 f0 : CharJson)
    (hseed : st.charlist_history.isEmpty = false)
    (hjoin : pyJoin "; " (st.charlist_history.getLastD []) = Except.ok joinstr)
    (h1 : parse_llm_response resp1 regularise_charjson = Except.ok cj1)
    (hs : cj1.status = "success")
    (h2 : parse_llm_response resp2 regularise_charjson = Except.ok f0)
    (hf : f0.status ≠ "success") :
    (∃ st2, followup_accum_step st spid desc resp1 resp2 ws true =
        (Except.ok { f0 with status := f0.status ++ "_followup" }, st2,
         [GenCall.generate, GenCall.chat]) ∧
      st2.sp_chars = st.sp_chars ++
        [SpChar.mk spid (f0.status ++ "_followup") desc PyVal.none f0.data]) ∧
    (f0.status ++ "_followup" = "bad_structure_followup" ∨
     f0.status ++ "_followup" = "invalid_json_followup") := by
  have hsuper := accum_step_nostore st spid desc joinstr resp1 cj1 hseed hjoin h1
  have hcases := parse_status_cases resp2 regularise_charjson f0 h2
  have hsuffix : f0.status ++ "_followup" = "bad_structure_followup" ∨
      f0.status ++ "_followup" = "invalid_json_followup" := by
    rcases hcases with h | h | h
    · exact absurd h hf
    · left; rw [h]; decide
    · right; rw [h]; decide
  have hne : ¬ ((f0.status ++ "_followup") = "success") := by
    rcases hsuffix with h | h <;> rw [h] <;> decide
  refine ⟨?_, hsuffix⟩
  unfold followup_accum_step
  rw [hsuper]
  try dsimp only
  rw [if_neg (by simp [hs])]
  try dsimp only
  rw [hjoin]
  try dsimp only
  rw [h2]
  try dsimp only
  rw [if_pos hf]
  try dsimp only
  rw [if_neg hne]
  try dsimp only
  rw [if_neg (Nat.lt_irrefl (st.charlist_history.getLastD []).length)]
  refine ⟨_, rfl, ?_⟩
  try dsimp only
  rw [if_neg hne, if_pos hne]

/-- Witness for C6: initial success followed by an `invalid_json` follow-up
response yields the stored status `invalid_json_followup`. -/
theorem followup_failure_status_suffixed_witness :
    (∃ st2, followup_accum_step st0 "sp1" "desc one" respOneChar respInvalid
        singletonTokens true =
        (Except.ok { status := "invalid_json" ++ "_followup",
                     data := PyVal.str "this is not JSON" }, st2,
         [GenCall.generate, GenCall.chat]) ∧
      st2.sp_chars = st0.sp_chars ++
        [SpChar.mk "sp1" ("invalid_json" ++ "_followup") "desc one" PyVal.none
          (PyVal.str "this is not JSON")]) ∧
    ("invalid_json" ++ "_followup" = "bad_structure_followup" ∨
     "invalid_json" ++ "_followup" = "invalid_json_followup") :=
  followup_failure_status_suffixed st0 "sp1" "desc one" "habit" respOneChar respInvalid
    singletonTokens
    { status := "success", data := PyVal.list [PyVal.dict
        [("characteristic", PyVal.str "stem colour"), ("value", PyVal.str "green")]] }
    { status := "invalid_json", data := PyVal.str "this is not JSON" }
    rfl rfl rfl rfl rfl (by decide)
